import Mathlib

/-
Verification of the wedding-planner backend (storage layer, auth service,
and HTTP route handlers) against its specification.

Encoding of JavaScript/TypeScript values:
- A field of type `T | null` is encoded as `Option T` (`none` = null).
- A field of an insert/partial object that may be absent (undefined), null,
  or a value is encoded as `Option (Option T)`:
  `none` = key absent / undefined, `some none` = explicit null,
  `some (some v)` = value `v`.
- A JS `Map<number, V>` is encoded as an association list `List (Nat × V)`
  in insertion order; `Map.set` on an existing key replaces in place
  (preserving the original insertion position), otherwise appends, exactly
  as the JS Map iteration contract prescribes.
-/

namespace Wedding

/-- JS nullish coalescing `a ?? b` where `a` is a possibly-absent,
possibly-null field and `b` is the fallback: returns `a` unless it is
null or undefined. -/
def nullish {α : Type} (a : Option (Option α)) (b : Option α) : Option α :=
  match a with
  | some (some v) => some v
  | _ => b

/-- JS `Map.prototype.get`. -/
def mapGet {α : Type} (k : Nat) (m : List (Nat × α)) : Option α :=
  (m.find? (fun e => e.1 == k)).map (fun e => e.2)

/-- JS `Map.prototype.set`: replace in place if the key exists (keeping
insertion order), append otherwise. -/
def mapSet {α : Type} (k : Nat) (v : α) : List (Nat × α) → List (Nat × α)
  | [] => [(k, v)]
  | e :: rest => if e.1 = k then (k, v) :: rest else e :: mapSet k v rest

/-- JS `Map.prototype.has`. -/
def mapHas {α : Type} (k : Nat) (m : List (Nat × α)) : Bool :=
  m.any (fun e => e.1 == k)

/-- JS `Map.prototype.delete` (the resulting map; the boolean result is
`mapHas k m`). -/
def mapDelete {α : Type} (k : Nat) (m : List (Nat × α)) : List (Nat × α) :=
  m.filter (fun e => e.1 != k)

/-- JS `Map.prototype.values` as a list (insertion order). -/
def mapValues {α : Type} (m : List (Nat × α)) : List α :=
  m.map (fun e => e.2)

/- ===== Entity records (src/unnamed/part_004, table `guests` / `tasks` /
`user_settings`; the `users` shape is taken from MemStorage.createUser in
src/unnamed/part_002, whose schema file is not under src/). ===== -/

/-- A stored Guest row. -/
structure Guest where
  id : Nat
  name : String
  email : Option String
  phone : Option String
  category : String
  rsvpStatus : Option String
  plusOne : Option Bool
  dietaryRestrictions : Option String
  tableAssignment : Option String
  mealChoice : Option String
  notes : Option String
deriving DecidableEq, Repr

/-- The insertable Guest shape (`insertGuestSchema`): `id` omitted, columns
with defaults or nullable columns optional. -/
structure InsertGuest where
  name : String
  category : String
  email : Option (Option String) := none
  phone : Option (Option String) := none
  rsvpStatus : Option (Option String) := none
  plusOne : Option (Option Bool) := none
  dietaryRestrictions : Option (Option String) := none
  tableAssignment : Option (Option String) := none
  mealChoice : Option (Option String) := none
  notes : Option (Option String) := none
deriving DecidableEq, Repr

/-- `insertGuestSchema.partial()`: every field optional. -/
structure PartialInsertGuest where
  name : Option String := none
  category : Option String := none
  email : Option (Option String) := none
  phone : Option (Option String) := none
  rsvpStatus : Option (Option String) := none
  plusOne : Option (Option Bool) := none
  dietaryRestrictions : Option (Option String) := none
  tableAssignment : Option (Option String) := none
  mealChoice : Option (Option String) := none
  notes : Option (Option String) := none
deriving DecidableEq, Repr

/-- A stored Task row. -/
structure Task where
  id : Nat
  title : String
  description : Option String
  dueDate : Option String
  completed : Option Bool
  priority : Option String
  category : Option String
  assignedTo : Option String
deriving DecidableEq, Repr

/-- The insertable Task shape (`insertTaskSchema`). -/
structure InsertTask where
  title : String
  description : Option (Option String) := none
  dueDate : Option (Option String) := none
  completed : Option (Option Bool) := none
  priority : Option (Option String) := none
  category : Option (Option String) := none
  assignedTo : Option (Option String) := none
deriving DecidableEq, Repr

/-- `insertTaskSchema.partial()`. -/
structure PartialInsertTask where
  title : Option String := none
  description : Option (Option String) := none
  dueDate : Option (Option String) := none
  completed : Option (Option Bool) := none
  priority : Option (Option String) := none
  category : Option (Option String) := none
  assignedTo : Option (Option String) := none
deriving DecidableEq, Repr

/-- A stored User row (shape used by MemStorage.createUser; `createdAt`
is a timestamp, modelled as a `Nat`). -/
structure User where
  id : Nat
  username : String
  password : String
  email : Option String
  fullName : Option String
  createdAt : Nat
  role : Option String
deriving DecidableEq, Repr

/-- The insertable User shape. -/
structure InsertUser where
  username : String
  password : String
  email : Option (Option String) := none
  fullName : Option (Option String) := none
  role : Option (Option String) := none
deriving DecidableEq, Repr

/-- A stored UserSettings row (the user-scoped variant of
src/unnamed/part_002). -/
structure UserSettings where
  id : Nat
  userId : Nat
  weddingDate : Option String
  coupleNames : Option String
  venueAddress : Option String
  theme : Option String
  isPremium : Option Bool
deriving DecidableEq, Repr

/-- The insertable UserSettings shape. -/
structure InsertUserSettings where
  userId : Nat
  weddingDate : Option (Option String) := none
  coupleNames : Option (Option String) := none
  venueAddress : Option (Option String) := none
  theme : Option (Option String) := none
  isPremium : Option (Option Bool) := none
deriving DecidableEq, Repr

/-- `insertUserSettingsSchema.partial()`. -/
structure PartialInsertUserSettings where
  userId : Option Nat := none
  weddingDate : Option (Option String) := none
  coupleNames : Option (Option String) := none
  venueAddress : Option (Option String) := none
  theme : Option (Option String) := none
  isPremium : Option (Option Bool) := none
deriving DecidableEq, Repr

/- ===== MemStorage (src/unnamed/part_002, class MemStorage) ===== -/

/-- The mutable state of `MemStorage`: one insertion-ordered map per
modelled entity plus its identifier counter (`guestId` etc. in the
source constructor). -/
structure MemState where
  guests : List (Nat × Guest)
  tasks : List (Nat × Task)
  users : List (Nat × User)
  userSettings : List (Nat × UserSettings)
  guestId : Nat
  taskId : Nat
  userId : Nat
  userSettingsId : Nat
deriving DecidableEq, Repr

/-- `new MemStorage()`: empty maps, every counter starts at 1. -/
def initMemState : MemState :=
  { guests := [], tasks := [], users := [], userSettings := []
    guestId := 1, taskId := 1, userId := 1, userSettingsId := 1 }

/-- `MemStorage.getGuests`. -/
def getGuests (st : MemState) : List Guest := mapValues st.guests

/-- `MemStorage.getGuest`. -/
def getGuest (st : MemState) (id : Nat) : Option Guest := mapGet id st.guests

/-- `MemStorage.createGuest` (src/unnamed/part_002 lines 179-196):
assigns `this.guestId++`, fills each optional field with `x ?? null`. -/
def createGuest (st : MemState) (guest : InsertGuest) : MemState × Guest :=
  let id := st.guestId
  let newGuest : Guest :=
    { id := id
      name := guest.name
      email := nullish guest.email none
      phone := nullish guest.phone none
      category := guest.category
      rsvpStatus := nullish guest.rsvpStatus none
      plusOne := nullish guest.plusOne none
      dietaryRestrictions := nullish guest.dietaryRestrictions none
      tableAssignment := nullish guest.tableAssignment none
      mealChoice := nullish guest.mealChoice none
      notes := nullish guest.notes none }
  ({ st with guests := mapSet id newGuest st.guests, guestId := id + 1 }, newGuest)

/-- `MemStorage.updateGuest` (src/unnamed/part_002 lines 198-215):
`{...existing, ...guest, email: guest.email ?? existing.email, ...}`.
The spread passes required fields through when present; each optional
field is merged with nullish coalescing against the existing value. -/
def updateGuest (st : MemState) (id : Nat) (guest : PartialInsertGuest) :
    MemState × Option Guest :=
  match mapGet id st.guests with
  | none => (st, none)
  | some existing =>
    let updated : Guest :=
      { id := existing.id
        name := guest.name.getD existing.name
        category := guest.category.getD existing.category
        email := nullish guest.email existing.email
        phone := nullish guest.phone existing.phone
        rsvpStatus := nullish guest.rsvpStatus existing.rsvpStatus
        plusOne := nullish guest.plusOne existing.plusOne
        dietaryRestrictions := nullish guest.dietaryRestrictions existing.dietaryRestrictions
        tableAssignment := nullish guest.tableAssignment existing.tableAssignment
        mealChoice := nullish guest.mealChoice existing.mealChoice
        notes := nullish guest.notes existing.notes }
    ({ st with guests := mapSet id updated st.guests }, some updated)

/-- `MemStorage.deleteGuest` (src/unnamed/part_002 lines 217-219):
`this.guests.delete(id)`. -/
def deleteGuest (st : MemState) (id : Nat) : MemState × Bool :=
  ({ st with guests := mapDelete id st.guests }, mapHas id st.guests)

/-- `MemStorage.getTasks`. -/
def getTasks (st : MemState) : List Task := mapValues st.tasks

/-- `MemStorage.getTask`. -/
def getTask (st : MemState) (id : Nat) : Option Task := mapGet id st.tasks

/-- `MemStorage.createTask` (src/unnamed/part_002 lines 276-290). -/
def createTask (st : MemState) (task : InsertTask) : MemState × Task :=
  let id := st.taskId
  let newTask : Task :=
    { id := id
      title := task.title
      description := nullish task.description none
      dueDate := nullish task.dueDate none
      completed := nullish task.completed none
      priority := nullish task.priority none
      category := nullish task.category none
      assignedTo := nullish task.assignedTo none }
  ({ st with tasks := mapSet id newTask st.tasks, taskId := id + 1 }, newTask)

/-- `MemStorage.updateTask` (src/unnamed/part_001 lines 171-184 /
src/unnamed/part_002 lines 292-307). -/
def updateTask (st : MemState) (id : Nat) (task : PartialInsertTask) :
    MemState × Option Task :=
  match mapGet id st.tasks with
  | none => (st, none)
  | some existing =>
    let updated : Task :=
      { id := existing.id
        title := task.title.getD existing.title
        description := nullish task.description existing.description
        dueDate := nullish task.dueDate existing.dueDate
        completed := nullish task.completed existing.completed
        priority := nullish task.priority existing.priority
        category := nullish task.category existing.category
        assignedTo := nullish task.assignedTo existing.assignedTo }
    ({ st with tasks := mapSet id updated st.tasks }, some updated)

/-- `MemStorage.deleteTask`. -/
def deleteTask (st : MemState) (id : Nat) : MemState × Bool :=
  ({ st with tasks := mapDelete id st.tasks }, mapHas id st.tasks)

/-- `MemStorage.getUser`. -/
def getUser (st : MemState) (id : Nat) : Option User := mapGet id st.users

/-- `MemStorage.getUserByUsername` (src/unnamed/part_002 lines 133-135):
`Array.from(this.users.values()).find(user => user.username === username)`. -/
def getUserByUsername (st : MemState) (username : String) : Option User :=
  (mapValues st.users).find? (fun user => user.username == username)

/-- `MemStorage.createUser` (src/unnamed/part_002 lines 137-150). `now`
models `new Date()`. -/
def createUser (st : MemState) (now : Nat) (user : InsertUser) : MemState × User :=
  let id := st.userId
  let newUser : User :=
    { id := id
      username := user.username
      password := user.password
      email := nullish user.email none
      fullName := nullish user.fullName none
      createdAt := now
      role := nullish user.role (some "user") }
  ({ st with users := mapSet id newUser st.users, userId := id + 1 }, newUser)

/-- `MemStorage.getUserSettings` (src/unnamed/part_002 lines 446-449):
returns the first stored settings record, if any. -/
def getUserSettings (st : MemState) : Option UserSettings :=
  (mapValues st.userSettings).head?

/-- `MemStorage.createUserSettings` (src/unnamed/part_002 lines 457-470). -/
def createUserSettings (st : MemState) (settings : InsertUserSettings) :
    MemState × UserSettings :=
  let id := st.userSettingsId
  let newSettings : UserSettings :=
    { id := id
      userId := settings.userId
      weddingDate := nullish settings.weddingDate none
      coupleNames := nullish settings.coupleNames none
      venueAddress := nullish settings.venueAddress none
      theme := nullish settings.theme none
      isPremium := nullish settings.isPremium none }
  ({ st with
      userSettings := mapSet id newSettings st.userSettings,
      userSettingsId := id + 1 }, newSettings)

/-- `MemStorage.updateUserSettings` (src/unnamed/part_002 lines 472-487). -/
def updateUserSettings (st : MemState) (id : Nat) (settings : PartialInsertUserSettings) :
    MemState × Option UserSettings :=
  match mapGet id st.userSettings with
  | none => (st, none)
  | some existing =>
    let updated : UserSettings :=
      { id := existing.id
        userId := settings.userId.getD existing.userId
        weddingDate := nullish settings.weddingDate existing.weddingDate
        coupleNames := nullish settings.coupleNames existing.coupleNames
        venueAddress := nullish settings.venueAddress existing.venueAddress
        theme := nullish settings.theme existing.theme
        isPremium := nullish settings.isPremium existing.isPremium }
    ({ st with userSettings := mapSet id updated st.userSettings }, some updated)

/- ===== DatabaseStorage (src/unnamed/part_001 lines 685-801), guest
entity. The class delegates every operation to the relational engine via
`db.insert/update/delete`. The engine itself is not part of this
repository, so its row-level semantics is modelled from the spec:
INSERT applies each column's declared default (src/unnamed/part_004:
rsvpStatus default "pending", plusOne default false, other optional
columns NULL) when the column is absent from the values object, and
stores NULL when it is explicitly null; UPDATE ... SET writes exactly
the columns present in the set object (explicit null becomes NULL) and
leaves absent columns untouched; `update`/`delete` report absence via
the affected-row count. Identifiers come from the primary-key sequence
(`serial`, starting at 1). -/

/-- The relational variant's guest table plus its id sequence. -/
structure DbGuestState where
  rows : List (Nat × Guest)
  nextId : Nat
deriving DecidableEq, Repr

/-- `new DatabaseStorage()` over an empty guests table. -/
def initDbGuestState : DbGuestState := { rows := [], nextId := 1 }

/-- Modelled from the spec: the value a relational INSERT stores for one
column, given the insert object's field (absent / null / value) and the
column's declared default. -/
def dbInsertVal {α : Type} (v : Option (Option α)) (dflt : Option α) : Option α :=
  match v with
  | some x => x
  | none => dflt

/-- Modelled from the spec: the value an UPDATE ... SET leaves in one
column: present fields overwrite (null becomes NULL), absent fields keep
the old value. -/
def dbSetVal {α : Type} (v : Option (Option α)) (old : Option α) : Option α :=
  match v with
  | some x => x
  | none => old

/-- `DatabaseStorage.getGuest`. -/
def dbGetGuest (st : DbGuestState) (id : Nat) : Option Guest := mapGet id st.rows

/-- `DatabaseStorage.createGuest` (src/unnamed/part_001 lines 696-699):
`db.insert(guests).values(guest).returning()`. -/
def dbCreateGuest (st : DbGuestState) (guest : InsertGuest) : DbGuestState × Guest :=
  let id := st.nextId
  let newGuest : Guest :=
    { id := id
      name := guest.name
      email := dbInsertVal guest.email none
      phone := dbInsertVal guest.phone none
      category := guest.category
      rsvpStatus := dbInsertVal guest.rsvpStatus (some "pending")
      plusOne := dbInsertVal guest.plusOne (some false)
      dietaryRestrictions := dbInsertVal guest.dietaryRestrictions none
      tableAssignment := dbInsertVal guest.tableAssignment none
      mealChoice := dbInsertVal guest.mealChoice none
      notes := dbInsertVal guest.notes none }
  ({ rows := st.rows ++ [(id, newGuest)], nextId := id + 1 }, newGuest)

/-- `DatabaseStorage.updateGuest` (src/unnamed/part_001 lines 701-708):
`db.update(guests).set(guest).where(eq(guests.id, id)).returning()`. -/
def dbUpdateGuest (st : DbGuestState) (id : Nat) (guest : PartialInsertGuest) :
    DbGuestState × Option Guest :=
  match mapGet id st.rows with
  | none => (st, none)
  | some existing =>
    let updated : Guest :=
      { id := existing.id
        name := guest.name.getD existing.name
        category := guest.category.getD existing.category
        email := dbSetVal guest.email existing.email
        phone := dbSetVal guest.phone existing.phone
        rsvpStatus := dbSetVal guest.rsvpStatus existing.rsvpStatus
        plusOne := dbSetVal guest.plusOne existing.plusOne
        dietaryRestrictions := dbSetVal guest.dietaryRestrictions existing.dietaryRestrictions
        tableAssignment := dbSetVal guest.tableAssignment existing.tableAssignment
        mealChoice := dbSetVal guest.mealChoice existing.mealChoice
        notes := dbSetVal guest.notes existing.notes }
    ({ st with rows := mapSet id updated st.rows }, some updated)

/-- `DatabaseStorage.deleteGuest` (src/unnamed/part_001 lines 710-713):
`!!result.rowCount`. -/
def dbDeleteGuest (st : DbGuestState) (id : Nat) : DbGuestState × Bool :=
  ({ st with rows := mapDelete id st.rows }, mapHas id st.rows)

/- ===== Authentication service (src/unnamed/part_000). Node's crypto
primitives (`scrypt`, `timingSafeEqual`, hex codecs of `Buffer`) are
external library code; they are modelled here with the scrypt key
derivation function left as a parameter `kdf`. ===== -/

/-- Errors raised by the modelled crypto layer. `lengthMismatch` is the
error `crypto.timingSafeEqual` throws when its inputs differ in length;
`badSalt` is the error `scrypt` throws when the salt is `undefined`
(stored value without a `.` separator). -/
inductive CryptoErr where
  | lengthMismatch
  | badSalt
deriving DecidableEq, Repr

/-- `crypto.timingSafeEqual`: throws on length mismatch, otherwise
reports byte-wise equality. -/
def timingSafeEqual (a b : List Nat) : Except CryptoErr Bool :=
  if a.length = b.length then .ok (a == b) else .error .lengthMismatch

/-- The lowercase hex digit for a value below 16 (as produced by
`Buffer.toString("hex")`). -/
def hexDigit (n : Nat) : Char :=
  if n < 10 then Char.ofNat (48 + n) else Char.ofNat (87 + n)

/-- One byte as two lowercase hex characters. -/
def hexEncodeByte (b : Nat) : List Char :=
  [hexDigit (b / 16 % 16), hexDigit (b % 16)]

/-- `Buffer.toString("hex")` over a byte list. -/
def hexEncode (bytes : List Nat) : String :=
  String.mk (bytes.map hexEncodeByte).flatten

/-- The numeric value of one hex character, if any. -/
def hexVal (c : Char) : Option Nat :=
  if 48 ≤ c.toNat ∧ c.toNat ≤ 57 then some (c.toNat - 48)
  else if 97 ≤ c.toNat ∧ c.toNat ≤ 102 then some (c.toNat - 87)
  else if 65 ≤ c.toNat ∧ c.toNat ≤ 70 then some (c.toNat - 55)
  else none

/-- `Buffer.from(s, "hex")`: consume hex-digit pairs, stopping at the
first character that is not a hex digit (Node's documented behaviour). -/
def hexDecodeChars : List Char → List Nat
  | c1 :: c2 :: rest =>
    match hexVal c1, hexVal c2 with
    | some h, some l => (16 * h + l) :: hexDecodeChars rest
    | _, _ => []
  | _ => []

/-- `Buffer.from(s, "hex")` on a string. -/
def hexDecode (s : String) : List Nat := hexDecodeChars s.data

/-- JS `String.prototype.split` with a single-character separator:
splits at every occurrence, keeping empty pieces. -/
def splitOnChar (sep : Char) : List Char → List (List Char)
  | [] => [[]]
  | c :: rest =>
    match splitOnChar sep rest with
    | [] => if c = sep then [[], []] else [[c]]
    | h :: t => if c = sep then [] :: h :: t else (c :: h) :: t

/-- `stored.split(".")` as a list of strings. -/
def jsSplitDot (s : String) : List String :=
  (splitOnChar '.' s.data).map String.mk

/-- `hashPassword` (src/unnamed/part_000 lines 22-26). The fresh random
salt (`randomBytes(16).toString("hex")`) and the scrypt derivation are
external effects, passed in as `salt` and `kdf`; the function returns
`hash.salt` with the 64-byte derived key hex encoded. -/
def hashPassword (kdf : String → String → List Nat) (salt password : String) : String :=
  hexEncode (kdf password salt) ++ "." ++ salt

/-- `comparePasswords` (src/unnamed/part_000 lines 28-33): splits the
stored value on ".", hex-decodes the stored hash, re-derives the
supplied password with the stored salt, and calls `timingSafeEqual`
directly — the code performs no length check of its own. A stored value
with no "." leaves the salt `undefined` and `scrypt` throws. -/
def comparePasswords (kdf : String → String → List Nat) (supplied stored : String) :
    Except CryptoErr Bool :=
  let parts := jsSplitDot stored
  match parts.get? 1 with
  | none => .error .badSalt
  | some salt => timingSafeEqual (hexDecode (parts.headD "")) (kdf supplied salt)

/- ===== HTTP layer (src/unnamed/part_000 handlers, src/server/routes.ts) ===== -/

/-- The authenticated principal serialized to clients: the user record
without its `password` field, with `role: user.role || "user"` as built
by the `AuthUser` conversion in src/unnamed/part_000. -/
structure SafeUser where
  id : Nat
  username : String
  email : Option String
  fullName : Option String
  createdAt : Nat
  role : String
deriving DecidableEq, Repr

/-- JS `a || d` on a nullable string: null/undefined/"" fall back. -/
def jsOrStr (a : Option String) (d : String) : String :=
  match a with
  | some s => if s = "" then d else s
  | none => d

/-- `const { password, ...userWithoutPassword } = { ...user, role: user.role || "user" }`. -/
def authSansPassword (u : User) : SafeUser :=
  { id := u.id, username := u.username, email := u.email, fullName := u.fullName,
    createdAt := u.createdAt, role := jsOrStr u.role "user" }

/-- A JSON response body, as far as the modelled handlers produce one. -/
inductive RespBody where
  | message (msg : String)
  | userBody (u : SafeUser)
  | guestBody (g : Guest)
  | settingsBody (s : UserSettings)
deriving DecidableEq, Repr

/-- An HTTP response: status code plus JSON body. -/
structure HttpResponse where
  status : Nat
  body : RespBody
deriving DecidableEq, Repr

/-- `POST /api/login` (src/unnamed/part_000 lines 132-145) composed with
the LocalStrategy verify callback (lines 55-72): an unknown username and
a failed password comparison both yield `done(null, false)` and hence
the same 401 response; a comparison error propagates to the error
handler (500); success logs in and returns the principal without its
password. -/
def loginHandler (kdf : String → String → List Nat) (st : MemState)
    (username password : String) : HttpResponse :=
  match getUserByUsername st username with
  | none => { status := 401, body := .message "Invalid username or password" }
  | some user =>
    match comparePasswords kdf password user.password with
    | .error _ => { status := 500, body := .message "Internal Server Error" }
    | .ok false => { status := 401, body := .message "Invalid username or password" }
    | .ok true => { status := 200, body := .userBody (authSansPassword user) }

/-- The raw body of `POST /api/register` (no schema validation runs on
this route; the handler reads `username` and `password` and spreads the
rest into `createUser`). -/
structure RegisterBody where
  username : String
  password : String
  email : Option (Option String) := none
  fullName : Option (Option String) := none
  role : Option (Option String) := none
deriving DecidableEq, Repr

/-- `POST /api/register` (src/unnamed/part_000 lines 93-130): 400 with
"Username already exists" when the username is taken (before any write);
otherwise hashes the password, creates the user and a default settings
row (`isPremium: false`), logs in, and returns 201 with the principal
without its password. -/
def registerHandler (kdf : String → String → List Nat) (salt : String) (now : Nat)
    (st : MemState) (body : RegisterBody) : MemState × HttpResponse :=
  match getUserByUsername st body.username with
  | some _ => (st, { status := 400, body := .message "Username already exists" })
  | none =>
    let hashedPassword := hashPassword kdf salt body.password
    let (st1, user) := createUser st now
      { username := body.username, password := hashedPassword,
        email := body.email, fullName := body.fullName, role := body.role }
    let (st2, _) := createUserSettings st1
      { userId := user.id, isPremium := some (some false) }
    (st2, { status := 201, body := .userBody (authSansPassword user) })

/-- `POST /api/guests` (src/server/routes.ts lines 24-31), success path:
the zod-validated insert object is handed to `createGuest` and the
created record is returned with status 201. (drizzle-zod's insert schema
marks defaulted columns optional and does not itself fill defaults, so
keys absent from the request stay absent in the parsed object.) -/
def postGuestsHandler (st : MemState) (parsed : InsertGuest) :
    MemState × HttpResponse :=
  let (st1, guest) := createGuest st parsed
  (st1, { status := 201, body := .guestBody guest })

/-- `GET /api/settings` (src/server/routes.ts lines 268-274): returns
the result of `storage.getUserSettings()` — the route never consults the
authenticated user. -/
def getSettingsHandler (st : MemState) : HttpResponse :=
  match getUserSettings st with
  | none => { status := 404, body := .message "Settings not found" }
  | some settings => { status := 200, body := .settingsBody settings }

/- ===== Traces of storage operations (for the reachable-state claims) ===== -/

/-- One guest-collection operation of the storage interface. -/
inductive GuestOp where
  | create (g : InsertGuest)
  | update (id : Nat) (p : PartialInsertGuest)
  | del (id : Nat)
deriving DecidableEq, Repr

/-- Apply one guest operation (discarding the returned value). -/
def applyGuestOp (st : MemState) : GuestOp → MemState
  | .create g => (createGuest st g).1
  | .update id p => (updateGuest st id p).1
  | .del id => (deleteGuest st id).1

/-- Run a sequence of guest operations. -/
def execGuestOps (st : MemState) : List GuestOp → MemState
  | [] => st
  | op :: rest => execGuestOps (applyGuestOp st op) rest

/-- The identifiers handed out by `createGuest` along a trace, in order. -/
def guestIdsAssigned (st : MemState) : List GuestOp → List Nat
  | [] => []
  | .create g :: rest =>
    (createGuest st g).2.id :: guestIdsAssigned (createGuest st g).1 rest
  | .update id p :: rest => guestIdsAssigned (updateGuest st id p).1 rest
  | .del id :: rest => guestIdsAssigned (deleteGuest st id).1 rest

/-- The number of creates in a guest trace. -/
def countGuestCreates : List GuestOp → Nat
  | [] => 0
  | .create _ :: rest => countGuestCreates rest + 1
  | _ :: rest => countGuestCreates rest

/-- One user-settings operation of the storage interface (the interface
offers no delete for settings). -/
inductive SettingsOp where
  | create (s : InsertUserSettings)
  | update (id : Nat) (p : PartialInsertUserSettings)
deriving DecidableEq, Repr

/-- Apply one settings operation. -/
def applySettingsOp (st : MemState) : SettingsOp → MemState
  | .create s => (createUserSettings st s).1
  | .update id p => (updateUserSettings st id p).1

/-- Run a sequence of settings operations. -/
def execSettingsOps (st : MemState) : List SettingsOp → MemState
  | [] => st
  | op :: rest => execSettingsOps (applySettingsOp st op) rest

/-- The number of creates in a settings trace. -/
def countSettingsCreates : List SettingsOp → Nat
  | [] => 0
  | .create _ :: rest => countSettingsCreates rest + 1
  | _ :: rest => countSettingsCreates rest

/- ===== Support definitions for the statements below ===== -/

/-- The field-level contract of the `??`-based merge actually implemented
by every update method: a present non-null value replaces the old one,
while an explicit null and an absent key both retain the old value. -/
def mergesNullish {α : Type} (nw : Option (Option α)) (old result : Option α) : Prop :=
  (∀ v, nw = some (some v) → result = some v) ∧
  (nw = some none → result = old) ∧
  (nw = none → result = old)

/-- The field-level contract of the object spread for required fields:
present in the partial replaces, absent retains. -/
def spreadMerges {α : Type} (nw : Option α) (old result : α) : Prop :=
  (∀ v, nw = some v → result = v) ∧ (nw = none → result = old)

/-- A concrete stand-in for the external scrypt derivation, used only to
instantiate witnesses: deterministic, fixed 64-byte output. -/
def kdfDemo (password salt : String) : List Nat :=
  List.replicate 64 ((password.length + salt.length) % 256)

/-- The insert parsed from `{name:"Ana", category:"family"}`. -/
def anaInsert : InsertGuest := { name := "Ana", category := "family" }

/-- A concrete stored guest used in counterexamples. -/
def gSample : Guest :=
  { id := 1, name := "Ana", email := some "ana@mail.test", phone := none,
    category := "family", rsvpStatus := some "pending", plusOne := some false,
    dietaryRestrictions := none, tableAssignment := none, mealChoice := none,
    notes := none }

/-- A store holding just `gSample`. -/
def stGuest1 : MemState :=
  { initMemState with guests := [(1, gSample)], guestId := 2 }

/-- A partial update carrying an explicit null for `email`
(`{email: null}`). -/
def pNullEmail : PartialInsertGuest := { email := some none }

/-- A concrete registered user (password stored in `hash.salt` form). -/
def anaUser : User :=
  { id := 1, username := "ana", password := hashPassword kdfDemo "abcd" "pw",
    email := none, fullName := none, createdAt := 0, role := some "user" }

/-- A store holding just `anaUser`. -/
def stAna : MemState :=
  { initMemState with users := [(1, anaUser)], userId := 2 }

/-- One task-collection operation of the storage interface. -/
inductive TaskOp where
  | create (t : InsertTask)
  | update (id : Nat) (p : PartialInsertTask)
  | del (id : Nat)
deriving DecidableEq, Repr

/-- Apply one task operation (discarding the returned value). -/
def applyTaskOp (st : MemState) : TaskOp → MemState
  | .create t => (createTask st t).1
  | .update id p => (updateTask st id p).1
  | .del id => (deleteTask st id).1

/-- Run a sequence of task operations. -/
def execTaskOps (st : MemState) : List TaskOp → MemState
  | [] => st
  | op :: rest => execTaskOps (applyTaskOp st op) rest

/-- The identifiers handed out by `createTask` along a trace, in order. -/
def taskIdsAssigned (st : MemState) : List TaskOp → List Nat
  | [] => []
  | .create t :: rest =>
    (createTask st t).2.id :: taskIdsAssigned (createTask st t).1 rest
  | .update id p :: rest => taskIdsAssigned (updateTask st id p).1 rest
  | .del id :: rest => taskIdsAssigned (deleteTask st id).1 rest

/-- The number of creates in a task trace. -/
def countTaskCreates : List TaskOp → Nat
  | [] => 0
  | .create _ :: rest => countTaskCreates rest + 1
  | _ :: rest => countTaskCreates rest

/-- The identifier invariant of the guests collection: stored keys are
unique, each record carries its key as its `id`, and every key lies in
`[1, guestId)`. -/
def GuestInv (st : MemState) : Prop :=
  (st.guests.map Prod.fst).Nodup ∧
  (∀ e ∈ st.guests, e.2.id = e.1 ∧ 1 ≤ e.1 ∧ e.1 < st.guestId) ∧
  1 ≤ st.guestId

/-- The identifier invariant of the tasks collection. -/
def TaskInv (st : MemState) : Prop :=
  (st.tasks.map Prod.fst).Nodup ∧
  (∀ e ∈ st.tasks, e.2.id = e.1 ∧ 1 ≤ e.1 ∧ e.1 < st.taskId) ∧
  1 ≤ st.taskId

/-- The invariant of the user-settings collection along settings-only
traces: each record carries its key as its `id`, keys stay below the
counter, the collection grows by exactly one per create (there is no
delete), and the first inserted record keeps key 1 at the head. -/
def SettingsInv (st : MemState) : Prop :=
  (∀ e ∈ st.userSettings, e.2.id = e.1 ∧ 1 ≤ e.1 ∧ e.1 < st.userSettingsId) ∧
  st.userSettings.length + 1 = st.userSettingsId ∧
  (st.userSettings.map Prod.fst).head? =
    (if st.userSettingsId = 1 then none else some 1)

/-- The relational guests table holding just `gSample` (mirror of
`stGuest1` for the comparison claims). -/
def dbGuest1 : DbGuestState := { rows := [(1, gSample)], nextId := 2 }

/-- A demo guest trace: two creates, a delete, another create. -/
def guestOpsDemo : List GuestOp :=
  [.create anaInsert, .create anaInsert, .del 1, .create anaInsert]

/-- A demo task trace: create, update, create. -/
def taskOpsDemo : List TaskOp :=
  [.create { title := "book venue" }, .update 1 { completed := some (some true) },
   .create { title := "send invites" }]

/-- A demo settings trace: two creates and an update of the first. -/
def settingsOpsDemo : List SettingsOp :=
  [.create { userId := 1 }, .create { userId := 2 },
   .update 1 { theme := some (some "rustic") }]

/-- An insert in which every optional field is explicitly present (the
regime where the two storage backends agree on creation). -/
def gFull : InsertGuest :=
  { name := "Bea", category := "friends", email := some (some "bea@mail.test"),
    phone := some none, rsvpStatus := some (some "confirmed"),
    plusOne := some (some true), dietaryRestrictions := some none,
    tableAssignment := some none, mealChoice := some none, notes := some none }

/-- The record MemStorage actually builds for `anaInsert`: id 1 and every
absent optional field null. -/
def gAna : Guest :=
  { id := 1, name := "Ana", email := none, phone := none, category := "family",
    rsvpStatus := none, plusOne := none, dietaryRestrictions := none,
    tableAssignment := none, mealChoice := none, notes := none }

/- ===== Lemmas about the JS Map model ===== -/

theorem mapGet_cons {α : Type} (k : Nat) (e : Nat × α) (m : List (Nat × α)) :
    mapGet k (e :: m) = if e.1 = k then some e.2 else mapGet k m := by
  by_cases h : e.1 = k <;> simp [mapGet, List.find?_cons, h]

theorem mapGet_mapSet_self {α : Type} (k : Nat) (v : α) (m : List (Nat × α)) :
    mapGet k (mapSet k v m) = some v := by
  induction m with
  | nil => simp [mapSet, mapGet, List.find?]
  | cons e rest ih =>
    by_cases h : e.1 = k
    · simp [mapSet, h, mapGet_cons]
    · simp [mapSet, h, mapGet_cons, ih]

theorem mapGet_mapSet_ne {α : Type} (k j : Nat) (v : α) (m : List (Nat × α))
    (h : k ≠ j) : mapGet j (mapSet k v m) = mapGet j m := by
  induction m with
  | nil =>
    show mapGet j [(k, v)] = mapGet j []
    rw [mapGet_cons]
    simp [h, mapGet, List.find?]
  | cons e rest ih =>
    by_cases he : e.1 = k
    · simp [mapSet, he, mapGet_cons, h]
    · simp [mapSet, he, mapGet_cons, ih]

theorem mapHas_false_iff {α : Type} (k : Nat) (m : List (Nat × α)) :
    mapHas k m = false ↔ mapGet k m = none := by
  induction m with
  | nil => simp [mapHas, mapGet, List.find?]
  | cons e rest ih =>
    by_cases h : e.1 = k <;> simp [mapHas, mapGet_cons, h, List.any_cons] at ih ⊢
    · exact ih

theorem mapHas_true_of_get {α : Type} (k : Nat) (v : α) (m : List (Nat × α))
    (h : mapGet k m = some v) : mapHas k m = true := by
  by_contra hb
  rw [Bool.not_eq_true, mapHas_false_iff] at hb
  rw [h] at hb
  exact Option.noConfusion hb

theorem mapGet_mapDelete_self {α : Type} (k : Nat) (m : List (Nat × α)) :
    mapGet k (mapDelete k m) = none := by
  induction m with
  | nil => simp [mapDelete, mapGet, List.find?]
  | cons e rest ih =>
    by_cases h : e.1 = k
    · simpa [mapDelete, h] using ih
    · simpa [mapDelete, h, mapGet_cons] using ih

theorem mapDelete_of_get_none {α : Type} (k : Nat) (m : List (Nat × α))
    (h : mapGet k m = none) : mapDelete k m = m := by
  induction m with
  | nil => rfl
  | cons e rest ih =>
    rw [mapGet_cons] at h
    by_cases he : e.1 = k
    · simp [he] at h
    · simp [he] at h
      simp [mapDelete, he, List.filter_cons]
      simpa [mapDelete] using ih h

theorem mapSet_of_get_none {α : Type} (k : Nat) (v : α) (m : List (Nat × α))
    (h : mapGet k m = none) : mapSet k v m = m ++ [(k, v)] := by
  induction m with
  | nil => rfl
  | cons e rest ih =>
    rw [mapGet_cons] at h
    by_cases he : e.1 = k
    · simp [he] at h
    · simp [he] at h
      simp [mapSet, he, ih h]

theorem mem_mapSet {α : Type} (k : Nat) (v : α) (m : List (Nat × α)) (e : Nat × α)
    (h : e ∈ mapSet k v m) : e = (k, v) ∨ e ∈ m := by
  induction m with
  | nil => simpa [mapSet] using h
  | cons f rest ih =>
    by_cases hf : f.1 = k
    · simp [mapSet, hf] at h
      rcases h with h | h
      · exact Or.inl h
      · exact Or.inr (List.mem_cons_of_mem f h)
    · simp [mapSet, hf] at h
      rcases h with h | h
      · exact Or.inr (by simp [h])
      · rcases ih h with h1 | h1
        · exact Or.inl h1
        · exact Or.inr (List.mem_cons_of_mem f h1)

theorem keys_mapSet_of_get_some {α : Type} (k : Nat) (v w : α) (m : List (Nat × α))
    (h : mapGet k m = some w) : (mapSet k v m).map Prod.fst = m.map Prod.fst := by
  induction m with
  | nil => simp [mapGet, List.find?] at h
  | cons e rest ih =>
    rw [mapGet_cons] at h
    by_cases he : e.1 = k
    · simp [mapSet, he]
    · simp [he] at h
      simp [mapSet, he, ih h]

theorem mem_mapDelete {α : Type} (k : Nat) (m : List (Nat × α)) (e : Nat × α)
    (h : e ∈ mapDelete k m) : e ∈ m := by
  exact List.mem_of_mem_filter h

theorem mapValues_head?_mapSet {α : Type} (k : Nat) (v : α) (f : Nat × α)
    (m : List (Nat × α)) :
    (mapSet k v (f :: m)).head?.map Prod.fst = some f.1 := by
  by_cases h : f.1 = k <;> simp [mapSet, h]

theorem mapGet_mem {α : Type} (k : Nat) (v : α) (m : List (Nat × α))
    (h : mapGet k m = some v) : (k, v) ∈ m := by
  unfold mapGet at h
  cases hf : m.find? (fun e => e.1 == k) with
  | none => rw [hf] at h; simp at h
  | some e =>
    rw [hf] at h
    simp at h
    have hmem := List.mem_of_find?_eq_some hf
    have hpred := List.find?_some hf
    simp at hpred
    cases e with
    | mk k1 v1 =>
      simp at hpred h
      rw [← hpred, ← h]
      exact hmem

theorem length_mapSet_of_get_some {α : Type} (k : Nat) (v w : α) (m : List (Nat × α))
    (h : mapGet k m = some w) : (mapSet k v m).length = m.length := by
  have := keys_mapSet_of_get_some k v w m h
  have h1 : ((mapSet k v m).map Prod.fst).length = (m.map Prod.fst).length := by rw [this]
  simpa using h1

/- ===== Lemmas about the merge operators ===== -/

theorem nullish_merges {α : Type} (nw : Option (Option α)) (old : Option α) :
    mergesNullish nw old (nullish nw old) := by
  refine ⟨fun v h => ?_, fun h => ?_, fun h => ?_⟩ <;> subst h <;> rfl

theorem getD_spreadMerges {α : Type} (nw : Option α) (old : α) :
    spreadMerges nw old (nw.getD old) := by
  refine ⟨fun v h => ?_, fun h => ?_⟩ <;> subst h <;> rfl

/- ===== C8 ===== -/

/-- C8: for the modelled collections, `delete` on a present id returns
true and a subsequent `get` returns absent; `delete` and `update` on an
absent id return false/absent and leave the whole state (hence the
collection and its size) unchanged; all operations are total functions,
so nothing throws. -/
theorem delete_update_absent_id_semantics :
    (∀ (st : MemState) (id : Nat) (g : Guest), getGuest st id = some g →
      (deleteGuest st id).2 = true ∧ getGuest (deleteGuest st id).1 id = none) ∧
    (∀ (st : MemState) (id : Nat), getGuest st id = none →
      (deleteGuest st id).2 = false ∧ (deleteGuest st id).1 = st) ∧
    (∀ (st : MemState) (id : Nat) (p : PartialInsertGuest), getGuest st id = none →
      updateGuest st id p = (st, none)) ∧
    (∀ (st : MemState) (id : Nat) (t : Task), getTask st id = some t →
      (deleteTask st id).2 = true ∧ getTask (deleteTask st id).1 id = none) ∧
    (∀ (st : MemState) (id : Nat), getTask st id = none →
      (deleteTask st id).2 = false ∧ (deleteTask st id).1 = st) ∧
    (∀ (st : MemState) (id : Nat) (p : PartialInsertTask), getTask st id = none →
      updateTask st id p = (st, none)) := by
  refine ⟨?_, ?_, ?_, ?_, ?_, ?_⟩
  · intro st id g h
    exact ⟨mapHas_true_of_get id g st.guests h,
      by simp [getGuest, deleteGuest, mapGet_mapDelete_self]⟩
  · intro st id h
    refine ⟨by simpa [deleteGuest] using (mapHas_false_iff id st.guests).mpr h, ?_⟩
    simp [deleteGuest, mapDelete_of_get_none id st.guests h]
  · intro st id p h
    simp [updateGuest, getGuest] at h ⊢
    rw [h]
  · intro st id t h
    exact ⟨mapHas_true_of_get id t st.tasks h,
      by simp [getTask, deleteTask, mapGet_mapDelete_self]⟩
  · intro st id h
    refine ⟨by simpa [deleteTask] using (mapHas_false_iff id st.tasks).mpr h, ?_⟩
    simp [deleteTask, mapDelete_of_get_none id st.tasks h]
  · intro st id p h
    simp [updateTask, getTask] at h ⊢
    rw [h]

/-- Witness for C8 at concrete inputs: `stGuest1` holds guest 1 and no
guest 2 and no task 1. -/
theorem delete_update_absent_id_semantics_witness :
    getGuest stGuest1 1 = some gSample ∧
    (deleteGuest stGuest1 1).2 = true ∧
    getGuest (deleteGuest stGuest1 1).1 1 = none ∧
    (deleteGuest stGuest1 2).2 = false ∧
    (deleteGuest stGuest1 2).1 = stGuest1 ∧
    updateGuest stGuest1 2 pNullEmail = (stGuest1, none) ∧
    updateTask stGuest1 1 { } = (stGuest1, none) := by
  have h1 : getGuest stGuest1 1 = some gSample := by decide
  have h2 : getGuest stGuest1 2 = none := by decide
  have h3 : getTask stGuest1 1 = none := by decide
  have hthm := delete_update_absent_id_semantics
  exact ⟨h1, (hthm.1 stGuest1 1 gSample h1).1, (hthm.1 stGuest1 1 gSample h1).2,
    (hthm.2.1 stGuest1 2 h2).1, (hthm.2.1 stGuest1 2 h2).2,
    hthm.2.2.1 stGuest1 2 pNullEmail h2,
    hthm.2.2.2.2.2 stGuest1 1 { } h3⟩

/- ===== C1 ===== -/

/-- C1 counterexample: guest 1 stores email "ana@mail.test"; the partial
update `{email: null}` has the field present as a key with value null,
yet the post-update record still holds the old email — the explicit null
does not replace the old value, refuting the claim at this input. -/
theorem update_null_replace_counterexample :
    pNullEmail.email = some none ∧
    (updateGuest stGuest1 1 pNullEmail).2.map Guest.email = some (some "ana@mail.test") ∧
    (updateGuest stGuest1 1 pNullEmail).2.map Guest.email ≠ some none := by
  refine ⟨rfl, by decide, by decide⟩

/-- C1 (amended): the update merge of MemStorage is nullish-coalescing,
field by field: an optional field present in the partial with a non-null
value replaces the old one, while a field absent as a key — or present
with an explicit null — retains the pre-update value verbatim; required
fields present in the partial overwrite via the object spread; the `id`
is never changed, and the merged record is what a subsequent `get`
returns. Proved for the Guest and Task update paths. -/
theorem update_merge_semantics :
    (∀ (st : MemState) (id : Nat) (p : PartialInsertGuest) (g g' : Guest),
      getGuest st id = some g → (updateGuest st id p).2 = some g' →
      g'.id = g.id ∧
      spreadMerges p.name g.name g'.name ∧
      spreadMerges p.category g.category g'.category ∧
      mergesNullish p.email g.email g'.email ∧
      mergesNullish p.phone g.phone g'.phone ∧
      mergesNullish p.rsvpStatus g.rsvpStatus g'.rsvpStatus ∧
      mergesNullish p.plusOne g.plusOne g'.plusOne ∧
      mergesNullish p.dietaryRestrictions g.dietaryRestrictions g'.dietaryRestrictions ∧
      mergesNullish p.tableAssignment g.tableAssignment g'.tableAssignment ∧
      mergesNullish p.mealChoice g.mealChoice g'.mealChoice ∧
      mergesNullish p.notes g.notes g'.notes ∧
      getGuest (updateGuest st id p).1 id = some g') ∧
    (∀ (st : MemState) (id : Nat) (q : PartialInsertTask) (t t' : Task),
      getTask st id = some t → (updateTask st id q).2 = some t' →
      t'.id = t.id ∧
      spreadMerges q.title t.title t'.title ∧
      mergesNullish q.description t.description t'.description ∧
      mergesNullish q.dueDate t.dueDate t'.dueDate ∧
      mergesNullish q.completed t.completed t'.completed ∧
      mergesNullish q.priority t.priority t'.priority ∧
      mergesNullish q.category t.category t'.category ∧
      mergesNullish q.assignedTo t.assignedTo t'.assignedTo ∧
      getTask (updateTask st id q).1 id = some t') := by
  constructor
  · intro st id p g g' hget hupd
    simp [getGuest] at hget
    simp [updateGuest, hget] at hupd
    subst hupd
    refine ⟨rfl, getD_spreadMerges _ _, getD_spreadMerges _ _,
      nullish_merges _ _, nullish_merges _ _, nullish_merges _ _,
      nullish_merges _ _, nullish_merges _ _, nullish_merges _ _,
      nullish_merges _ _, nullish_merges _ _, ?_⟩
    simp [getGuest, updateGuest, hget, mapGet_mapSet_self]
  · intro st id q t t' hget hupd
    simp [getTask] at hget
    simp [updateTask, hget] at hupd
    subst hupd
    refine ⟨rfl, getD_spreadMerges _ _, nullish_merges _ _, nullish_merges _ _,
      nullish_merges _ _, nullish_merges _ _, nullish_merges _ _,
      nullish_merges _ _, ?_⟩
    simp [getTask, updateTask, hget, mapGet_mapSet_self]

/-- Witness for C1 (amended) at a concrete input: updating guest 1 with
`{email: null}` keeps the record intact and persists it. -/
theorem update_merge_semantics_witness :
    getGuest stGuest1 1 = some gSample ∧
    (updateGuest stGuest1 1 pNullEmail).2 = some gSample ∧
    mergesNullish pNullEmail.email gSample.email gSample.email ∧
    getGuest (updateGuest stGuest1 1 pNullEmail).1 1 = some gSample := by
  have h1 : getGuest stGuest1 1 = some gSample := by decide
  have h2 : (updateGuest stGuest1 1 pNullEmail).2 = some gSample := by decide
  have h := update_merge_semantics.1 stGuest1 1 pNullEmail gSample gSample h1 h2
  exact ⟨h1, h2, h.2.2.2.1, h.2.2.2.2.2.2.2.2.2.2.2⟩

/- ===== C2 ===== -/

/-- C2 counterexample: the insert parsed from
`{name:"Ana", category:"family"}` has `rsvpStatus` and `plusOne` absent,
and the record MemStorage creates (and the 201 response carries) holds
null for both — not the declared defaults "pending" and false. -/
theorem create_defaults_counterexample :
    anaInsert.rsvpStatus = none ∧ anaInsert.plusOne = none ∧
    (createGuest initMemState anaInsert).2.rsvpStatus ≠ some "pending" ∧
    (createGuest initMemState anaInsert).2.plusOne ≠ some false ∧
    (postGuestsHandler initMemState anaInsert).2 =
      { status := 201, body := .guestBody gAna } := by
  refine ⟨rfl, rfl, by decide, by decide, by decide⟩

/-- C2 (amended): `create` assigns the next identifier, bumps the
counter, persists the record, and returns it — but fills every optional
field that is absent from the input with null rather than with the
schema's declared default; in particular POST /api/guests with only name
and category yields 201 with `rsvpStatus` null and `plusOne` null.
Proved for the Guest and Task create paths. -/
theorem create_assigns_id_and_null_fills :
    (∀ (st : MemState) (g : InsertGuest),
      (createGuest st g).2.id = st.guestId ∧
      (createGuest st g).1.guestId = st.guestId + 1 ∧
      (createGuest st g).2.name = g.name ∧
      (createGuest st g).2.category = g.category ∧
      (g.email = none → (createGuest st g).2.email = none) ∧
      (g.phone = none → (createGuest st g).2.phone = none) ∧
      (g.rsvpStatus = none → (createGuest st g).2.rsvpStatus = none) ∧
      (g.plusOne = none → (createGuest st g).2.plusOne = none) ∧
      (g.dietaryRestrictions = none → (createGuest st g).2.dietaryRestrictions = none) ∧
      (g.tableAssignment = none → (createGuest st g).2.tableAssignment = none) ∧
      (g.mealChoice = none → (createGuest st g).2.mealChoice = none) ∧
      (g.notes = none → (createGuest st g).2.notes = none) ∧
      getGuest (createGuest st g).1 st.guestId = some (createGuest st g).2) ∧
    (∀ (st : MemState) (t : InsertTask),
      (createTask st t).2.id = st.taskId ∧
      (createTask st t).1.taskId = st.taskId + 1 ∧
      (createTask st t).2.title = t.title ∧
      (t.completed = none → (createTask st t).2.completed = none) ∧
      (t.priority = none → (createTask st t).2.priority = none) ∧
      (t.description = none → (createTask st t).2.description = none) ∧
      getTask (createTask st t).1 st.taskId = some (createTask st t).2) ∧
    postGuestsHandler initMemState anaInsert =
      ({ initMemState with guests := [(1, gAna)], guestId := 2 },
       { status := 201, body := .guestBody gAna }) := by
  refine ⟨?_, ?_, by decide⟩
  · intro st g
    refine ⟨rfl, rfl, rfl, rfl, ?_, ?_, ?_, ?_, ?_, ?_, ?_, ?_, ?_⟩
    · intro h; simp [createGuest, h, nullish]
    · intro h; simp [createGuest, h, nullish]
    · intro h; simp [createGuest, h, nullish]
    · intro h; simp [createGuest, h, nullish]
    · intro h; simp [createGuest, h, nullish]
    · intro h; simp [createGuest, h, nullish]
    · intro h; simp [createGuest, h, nullish]
    · intro h; simp [createGuest, h, nullish]
    · simp [getGuest, createGuest, mapGet_mapSet_self]
  · intro st t
    refine ⟨rfl, rfl, rfl, ?_, ?_, ?_, ?_⟩
    · intro h; simp [createTask, h, nullish]
    · intro h; simp [createTask, h, nullish]
    · intro h; simp [createTask, h, nullish]
    · simp [getTask, createTask, mapGet_mapSet_self]

/-- Witness for C2 (amended) at the concrete scenario input. -/
theorem create_assigns_id_and_null_fills_witness :
    anaInsert.rsvpStatus = none ∧
    (createGuest initMemState anaInsert).2.rsvpStatus = none ∧
    (createGuest initMemState anaInsert).2.id = 1 ∧
    getGuest (createGuest initMemState anaInsert).1 1 = some (createGuest initMemState anaInsert).2 := by
  have h := create_assigns_id_and_null_fills.1 initMemState anaInsert
  exact ⟨rfl, h.2.2.2.2.2.2.1 rfl, h.1, h.2.2.2.2.2.2.2.2.2.2.2.2⟩

/- ===== C3 ===== -/

theorem nullish_some_eq {α : Type} (x : Option α) : nullish (some x) none = x := by
  cases x <;> rfl

/-- C3 counterexample: from matching empty states, `createGuest` on the
insert parsed from `{name:"Ana", category:"family"}` stores `rsvpStatus`
null in MemStorage but "pending" (the declared column default) in
DatabaseStorage, so the two implementations return different records for
the same call sequence. -/
theorem storage_backend_equivalence_counterexample :
    initMemState.guests = initDbGuestState.rows ∧
    initMemState.guestId = initDbGuestState.nextId ∧
    (createGuest initMemState anaInsert).2.rsvpStatus = none ∧
    (dbCreateGuest initDbGuestState anaInsert).2.rsvpStatus = some "pending" ∧
    (createGuest initMemState anaInsert).2 ≠ (dbCreateGuest initDbGuestState anaInsert).2 := by
  refine ⟨rfl, rfl, rfl, rfl, by decide⟩

/-- C3 (amended): the two backends expose the same interface but are not
observationally equivalent. They diverge on `create` whenever a
defaulted column is absent (MemStorage stores null, DatabaseStorage the
declared default) and on `update` with an explicit null (MemStorage
retains the old value, DatabaseStorage sets NULL); they do agree on
`create` when every optional field is explicitly present, and on
`delete` over equal stored collections. -/
theorem storage_backend_divergence :
    (∀ (mem : MemState) (db : DbGuestState) (g : InsertGuest),
      mem.guests = db.rows → mem.guestId = db.nextId →
      mapGet mem.guestId mem.guests = none →
      g.email.isSome → g.phone.isSome → g.rsvpStatus.isSome → g.plusOne.isSome →
      g.dietaryRestrictions.isSome → g.tableAssignment.isSome →
      g.mealChoice.isSome → g.notes.isSome →
      (createGuest mem g).2 = (dbCreateGuest db g).2 ∧
      (createGuest mem g).1.guests = (dbCreateGuest db g).1.rows ∧
      (createGuest mem g).1.guestId = (dbCreateGuest db g).1.nextId) ∧
    (∀ (mem : MemState) (db : DbGuestState) (id : Nat), mem.guests = db.rows →
      (deleteGuest mem id).2 = (dbDeleteGuest db id).2 ∧
      (deleteGuest mem id).1.guests = (dbDeleteGuest db id).1.rows) ∧
    (stGuest1.guests = dbGuest1.rows ∧
     (updateGuest stGuest1 1 pNullEmail).2.map Guest.email = some (some "ana@mail.test") ∧
     (dbUpdateGuest dbGuest1 1 pNullEmail).2.map Guest.email = some none ∧
     (updateGuest stGuest1 1 pNullEmail).2 ≠ (dbUpdateGuest dbGuest1 1 pNullEmail).2) ∧
    (createGuest initMemState anaInsert).2 ≠ (dbCreateGuest initDbGuestState anaInsert).2 := by
  refine ⟨?_, ?_, ⟨rfl, by decide, by decide, by decide⟩, by decide⟩
  · intro mem db g hrows hid hfresh h1 h2 h3 h4 h5 h6 h7 h8
    obtain ⟨x1, e1⟩ := Option.isSome_iff_exists.mp h1
    obtain ⟨x2, e2⟩ := Option.isSome_iff_exists.mp h2
    obtain ⟨x3, e3⟩ := Option.isSome_iff_exists.mp h3
    obtain ⟨x4, e4⟩ := Option.isSome_iff_exists.mp h4
    obtain ⟨x5, e5⟩ := Option.isSome_iff_exists.mp h5
    obtain ⟨x6, e6⟩ := Option.isSome_iff_exists.mp h6
    obtain ⟨x7, e7⟩ := Option.isSome_iff_exists.mp h7
    obtain ⟨x8, e8⟩ := Option.isSome_iff_exists.mp h8
    have hrec : (createGuest mem g).2 = (dbCreateGuest db g).2 := by
      simp [createGuest, dbCreateGuest, e1, e2, e3, e4, e5, e6, e7, e8,
        nullish_some_eq, dbInsertVal, hid]
    refine ⟨hrec, ?_, by simp [createGuest, dbCreateGuest, hid]⟩
    show mapSet mem.guestId (createGuest mem g).2 mem.guests =
      db.rows ++ [(db.nextId, (dbCreateGuest db g).2)]
    rw [mapSet_of_get_none mem.guestId _ mem.guests hfresh, hrows, hid, hrec]
  · intro mem db id hrows
    constructor
    · show mapHas id mem.guests = mapHas id db.rows
      rw [hrows]
    · show mapDelete id mem.guests = mapDelete id db.rows
      rw [hrows]

/-- Witness for C3 (amended): with every optional field present, the two
backends create identical records from matching empty states. -/
theorem storage_backend_divergence_witness :
    initMemState.guests = initDbGuestState.rows ∧
    mapGet initMemState.guestId initMemState.guests = none ∧
    gFull.email.isSome = true ∧
    (createGuest initMemState gFull).2 = (dbCreateGuest initDbGuestState gFull).2 ∧
    (createGuest initMemState gFull).1.guests = (dbCreateGuest initDbGuestState gFull).1.rows := by
  have h := storage_backend_divergence.1 initMemState initDbGuestState gFull
    rfl rfl (by decide) (by decide) (by decide) (by decide) (by decide)
    (by decide) (by decide) (by decide) (by decide)
  exact ⟨rfl, by decide, by decide, h.1, h.2.1⟩

/- ===== C4 ===== -/

/-- C4 counterexample: registering the already-taken username "ana"
fails, but with HTTP 400 (message "Username already exists"), not 409;
the store is left untouched. -/
theorem register_conflict_status_counterexample :
    getUserByUsername stAna "ana" = some anaUser ∧
    (registerHandler kdfDemo "abcd" 5 stAna { username := "ana", password := "pw2" }).2.status = 400 ∧
    (registerHandler kdfDemo "abcd" 5 stAna { username := "ana", password := "pw2" }).2.status ≠ 409 ∧
    (registerHandler kdfDemo "abcd" 5 stAna { username := "ana", password := "pw2" }).1 = stAna := by
  refine ⟨by decide, by decide, by decide, by decide⟩

/-- C4 (amended): registering a username that already exists fails with
HTTP 400 (message "Username already exists") — the handler returns
before any write, so the whole store, in particular the existing user's
record, is unchanged; registering a fresh username returns 201 carrying
the principal without its password field. -/
theorem register_semantics :
    (∀ (kdf : String → String → List Nat) (salt : String) (now : Nat)
       (st : MemState) (body : RegisterBody) (u : User),
      getUserByUsername st body.username = some u →
      registerHandler kdf salt now st body =
        (st, { status := 400, body := .message "Username already exists" })) ∧
    (∀ (kdf : String → String → List Nat) (salt : String) (now : Nat)
       (st : MemState) (body : RegisterBody),
      getUserByUsername st body.username = none →
      (registerHandler kdf salt now st body).2 =
        { status := 201,
          body := .userBody (authSansPassword (createUser st now
            { username := body.username,
              password := hashPassword kdf salt body.password,
              email := body.email, fullName := body.fullName,
              role := body.role }).2) }) := by
  constructor
  · intro kdf salt now st body u h
    simp [registerHandler, h]
  · intro kdf salt now st body h
    simp [registerHandler, h]

/-- Witness for C4 (amended): duplicate "ana" → 400 with state
unchanged; fresh "bob" → 201. -/
theorem register_semantics_witness :
    getUserByUsername stAna "ana" = some anaUser ∧
    registerHandler kdfDemo "abcd" 5 stAna { username := "ana", password := "pw2" } =
      (stAna, { status := 400, body := .message "Username already exists" }) ∧
    getUserByUsername stAna "bob" = none ∧
    (registerHandler kdfDemo "abcd" 5 stAna { username := "bob", password := "pw2" }).2.status = 201 := by
  have h1 : getUserByUsername stAna "ana" = some anaUser := by decide
  have h2 : getUserByUsername stAna "bob" = none := by decide
  refine ⟨h1, register_semantics.1 kdfDemo "abcd" 5 stAna _ anaUser h1, h2, ?_⟩
  rw [register_semantics.2 kdfDemo "abcd" 5 stAna _ h2]

/- ===== C5 ===== -/

/-- C5 counterexample: the stored value "ab.cdef" decodes to a 1-byte
hash while the derived key has 64 bytes, yet `comparePasswords` passes
both straight to `timingSafeEqual` — the comparator itself raises the
length-mismatch error, so no length validation happens before the
comparison call. -/
theorem compare_no_prevalidation_counterexample :
    (hexDecode "ab").length = 1 ∧
    (kdfDemo "pw" "cdef").length = 64 ∧
    comparePasswords kdfDemo "pw" "ab.cdef" =
      timingSafeEqual (hexDecode "ab") (kdfDemo "pw" "cdef") ∧
    comparePasswords kdfDemo "pw" "ab.cdef" = .error .lengthMismatch := by
  refine ⟨rfl, by decide, rfl, rfl⟩

/-- C5 (amended): `comparePasswords` performs no length validation of
its own. A stored hash whose decoded length differs from the derived
key's length reaches `timingSafeEqual` unfiltered, and the comparator
itself raises the length-mismatch error; a stored value without a "."
separator makes the derivation throw. Malformed input therefore
surfaces as a thrown error — a failure, never a silent false — but the
failure comes from the callee, not from validation inside
`comparePasswords`. -/
theorem compare_malformed_failure :
    (∀ (kdf : String → String → List Nat) (supplied stored hash salt : String)
       (rest : List String),
      jsSplitDot stored = hash :: salt :: rest →
      (hexDecode hash).length ≠ (kdf supplied salt).length →
      comparePasswords kdf supplied stored =
        timingSafeEqual (hexDecode hash) (kdf supplied salt) ∧
      comparePasswords kdf supplied stored = .error .lengthMismatch) ∧
    (∀ (kdf : String → String → List Nat) (supplied stored single : String),
      jsSplitDot stored = [single] →
      comparePasswords kdf supplied stored = .error .badSalt) := by
  constructor
  · intro kdf supplied stored hash salt rest hsplit hlen
    constructor
    · simp only [comparePasswords, hsplit]
      rfl
    · simp only [comparePasswords, hsplit]
      show timingSafeEqual (hexDecode hash) (kdf supplied salt) = .error .lengthMismatch
      simp [timingSafeEqual, hlen]
  · intro kdf supplied stored single hsplit
    simp only [comparePasswords, hsplit]
    rfl

/-- Witness for C5 (amended) at concrete malformed stored values. -/
theorem compare_malformed_failure_witness :
    jsSplitDot "ab.cdef" = ["ab", "cdef"] ∧
    (hexDecode "ab").length ≠ (kdfDemo "pw" "cdef").length ∧
    comparePasswords kdfDemo "pw" "ab.cdef" = .error .lengthMismatch ∧
    jsSplitDot "nodot" = ["nodot"] ∧
    comparePasswords kdfDemo "pw" "nodot" = .error .badSalt := by
  have hs : jsSplitDot "ab.cdef" = ["ab", "cdef"] := by decide
  have hl : (hexDecode "ab").length ≠ (kdfDemo "pw" "cdef").length := by decide
  have hn : jsSplitDot "nodot" = ["nodot"] := by decide
  exact ⟨hs, hl, (compare_malformed_failure.1 kdfDemo "pw" "ab.cdef" "ab" "cdef" [] hs hl).2,
    hn, compare_malformed_failure.2 kdfDemo "pw" "nodot" "nodot" hn⟩

/- ===== Lemmas about the hex codec and the split ===== -/

theorem hexDigit_ne_dot (n : Nat) (h : n < 16) : hexDigit n ≠ '.' := by
  interval_cases n <;> decide

theorem hexVal_hexDigit (n : Nat) (h : n < 16) : hexVal (hexDigit n) = some n := by
  interval_cases n <;> decide

theorem dot_not_mem_hexEncode (bytes : List Nat) : '.' ∉ (hexEncode bytes).data := by
  intro hmem
  have : '.' ∈ (bytes.map hexEncodeByte).flatten := hmem
  rw [List.mem_flatten] at this
  obtain ⟨l, hl, hcl⟩ := this
  rw [List.mem_map] at hl
  obtain ⟨b, _, rfl⟩ := hl
  simp [hexEncodeByte] at hcl
  rcases hcl with hcl | hcl
  · exact hexDigit_ne_dot _ (Nat.mod_lt _ (by omega)) hcl.symm
  · exact hexDigit_ne_dot _ (Nat.mod_lt _ (by omega)) hcl.symm

theorem hexEncode_data_length (bytes : List Nat) :
    (hexEncode bytes).data.length = 2 * bytes.length := by
  induction bytes with
  | nil => rfl
  | cons b rest ih =>
    show (hexEncodeByte b ++ ((rest.map hexEncodeByte).flatten)).length = 2 * (rest.length + 1)
    rw [List.length_append]
    have : ((rest.map hexEncodeByte).flatten).length = 2 * rest.length := ih
    rw [this]
    simp [hexEncodeByte]
    omega

theorem hexDecode_hexEncode (bytes : List Nat) (h : ∀ b ∈ bytes, b < 256) :
    hexDecode (hexEncode bytes) = bytes := by
  show hexDecodeChars (bytes.map hexEncodeByte).flatten = bytes
  induction bytes with
  | nil => rfl
  | cons b rest ih =>
    have hb : b < 256 := h b (List.mem_cons_self b rest)
    have hdiv : b / 16 % 16 = b / 16 := Nat.mod_eq_of_lt (by omega)
    show hexDecodeChars (hexEncodeByte b ++ (rest.map hexEncodeByte).flatten) = b :: rest
    rw [hexEncodeByte]
    show hexDecodeChars (hexDigit (b / 16 % 16) :: hexDigit (b % 16) ::
      (rest.map hexEncodeByte).flatten) = b :: rest
    rw [hexDecodeChars, hexVal_hexDigit _ (Nat.mod_lt _ (by omega)),
      hexVal_hexDigit _ (Nat.mod_lt _ (by omega))]
    have hrest : hexDecodeChars (rest.map hexEncodeByte).flatten = rest :=
      ih (fun x hx => h x (List.mem_cons_of_mem b hx))
    rw [hrest, hdiv]
    show (16 * (b / 16) + b % 16) :: rest = b :: rest
    have : 16 * (b / 16) + b % 16 = b := by omega
    rw [this]

theorem splitOnChar_ne_nil (sep : Char) (l : List Char) : splitOnChar sep l ≠ [] := by
  cases l with
  | nil => simp [splitOnChar]
  | cons c rest =>
    rw [splitOnChar]
    cases splitOnChar sep rest with
    | nil => by_cases h : c = sep <;> simp [h]
    | cons hd tl => by_cases h : c = sep <;> simp [h]

theorem splitOnChar_of_not_mem (sep : Char) (l : List Char) (h : sep ∉ l) :
    splitOnChar sep l = [l] := by
  induction l with
  | nil => rfl
  | cons c rest ih =>
    have hc : c ≠ sep := fun he => h (he ▸ List.mem_cons_self c rest)
    have hr : sep ∉ rest := fun hm => h (List.mem_cons_of_mem c hm)
    rw [splitOnChar, ih hr]
    simp [hc]

theorem splitOnChar_append (sep : Char) (l1 l2 : List Char) (h : sep ∉ l1) :
    splitOnChar sep (l1 ++ sep :: l2) = l1 :: splitOnChar sep l2 := by
  induction l1 with
  | nil =>
    show splitOnChar sep (sep :: l2) = [] :: splitOnChar sep l2
    rw [splitOnChar]
    cases hs : splitOnChar sep l2 with
    | nil => exact absurd hs (splitOnChar_ne_nil sep l2)
    | cons hd tl => simp
  | cons c rest ih =>
    have hc : c ≠ sep := fun he => h (he ▸ List.mem_cons_self c rest)
    have hr : sep ∉ rest := fun hm => h (List.mem_cons_of_mem c hm)
    show splitOnChar sep (c :: (rest ++ sep :: l2)) = (c :: rest) :: splitOnChar sep l2
    rw [splitOnChar, ih hr]
    simp [hc]

theorem hashPassword_data (kdf : String → String → List Nat) (salt p : String) :
    (hashPassword kdf salt p).data =
      (hexEncode (kdf p salt)).data ++ '.' :: salt.data := by
  have h1 : (hashPassword kdf salt p).data =
      ((hexEncode (kdf p salt)).data ++ ['.']) ++ salt.data := rfl
  rw [h1, List.append_assoc]
  rfl

theorem jsSplitDot_hashPassword (kdf : String → String → List Nat) (salt p : String)
    (hsalt : '.' ∉ salt.data) :
    jsSplitDot (hashPassword kdf salt p) = [hexEncode (kdf p salt), salt] := by
  show ((splitOnChar '.' (hashPassword kdf salt p).data).map String.mk) =
    [hexEncode (kdf p salt), salt]
  rw [hashPassword_data, splitOnChar_append _ _ _ (dot_not_mem_hexEncode (kdf p salt)),
    splitOnChar_of_not_mem _ _ hsalt]
  rfl

/- ===== C6 ===== -/

/-- C6: round-trip of the password hash. With the external scrypt
derivation modelled as a parameter `kdf` under its documented contract —
fixed 64-byte output, byte-valued entries, no collision between the two
plaintexts at this salt — and a salt in the format `randomBytes`
produces (no "." characters): verifying the original plaintext against
`hashPassword`'s output yields true, verifying a different plaintext
yields false, and the stored value differs from the plaintext (for any
plaintext that does not itself have the exact `hash.salt` shape, captured
by the last hypothesis). -/
theorem hash_verify_roundtrip (kdf : String → String → List Nat) (p q salt : String)
    (hbytes : ∀ b ∈ kdf p salt, b < 256)
    (h64p : (kdf p salt).length = 64)
    (h64q : (kdf q salt).length = 64)
    (hsalt : '.' ∉ salt.data)
    (hcoll : kdf q salt ≠ kdf p salt)
    (hp : '.' ∉ p.data ∨ p.length ≠ 129 + salt.length) :
    comparePasswords kdf p (hashPassword kdf salt p) = .ok true ∧
    comparePasswords kdf q (hashPassword kdf salt p) = .ok false ∧
    hashPassword kdf salt p ≠ p := by
  have hsplit := jsSplitDot_hashPassword kdf salt p hsalt
  refine ⟨?_, ?_, ?_⟩
  · simp only [comparePasswords, hsplit]
    show timingSafeEqual (hexDecode (hexEncode (kdf p salt))) (kdf p salt) = .ok true
    rw [hexDecode_hexEncode _ hbytes]
    simp [timingSafeEqual]
  · simp only [comparePasswords, hsplit]
    show timingSafeEqual (hexDecode (hexEncode (kdf p salt))) (kdf q salt) = .ok false
    rw [hexDecode_hexEncode _ hbytes]
    rw [timingSafeEqual, if_pos (by rw [h64p, h64q])]
    have : (kdf p salt == kdf q salt) = false :=
      beq_eq_false_iff_ne.mpr (fun he => hcoll he.symm)
    rw [this]
  · intro heq
    have hdata : p.data = (hexEncode (kdf p salt)).data ++ '.' :: salt.data := by
      conv_lhs => rw [← heq]
      exact hashPassword_data kdf salt p
    rcases hp with hnd | hlen
    · exact hnd (hdata ▸ List.mem_append_right _ (List.mem_cons_self _ _))
    · apply hlen
      have hsl : salt.length = salt.data.length := rfl
      show p.data.length = 129 + salt.length
      rw [hdata, List.length_append, hexEncode_data_length, h64p]
      simp only [List.length_cons]
      omega

/-- Witness for C6 with the concrete demo derivation, plaintexts "pw"
and "wrong", and salt "abcd". -/
theorem hash_verify_roundtrip_witness :
    (∀ b ∈ kdfDemo "pw" "abcd", b < 256) ∧
    (kdfDemo "pw" "abcd").length = 64 ∧
    ('.' ∉ "abcd".data) ∧
    kdfDemo "wrong" "abcd" ≠ kdfDemo "pw" "abcd" ∧
    comparePasswords kdfDemo "pw" (hashPassword kdfDemo "abcd" "pw") = .ok true ∧
    comparePasswords kdfDemo "wrong" (hashPassword kdfDemo "abcd" "pw") = .ok false ∧
    hashPassword kdfDemo "abcd" "pw" ≠ "pw" := by
  have h := hash_verify_roundtrip kdfDemo "pw" "wrong" "abcd"
    (by decide) (by decide) (by decide) (by decide) (by decide)
    (Or.inl (by decide))
  exact ⟨by decide, by decide, by decide, by decide, h.1, h.2.1, h.2.2⟩

/- ===== C7 ===== -/

/-- C7: for any state, an unknown-username login attempt and a
known-username wrong-password attempt produce identical responses —
both 401 with the body "Invalid username or password" — so the response
reveals nothing about whether the username exists. -/
theorem login_no_user_enumeration (kdf : String → String → List Nat)
    (st : MemState) (u1 p1 u2 p2 : String) (usr : User)
    (h1 : getUserByUsername st u1 = none)
    (h2 : getUserByUsername st u2 = some usr)
    (h3 : comparePasswords kdf p2 usr.password = .ok false) :
    loginHandler kdf st u1 p1 = loginHandler kdf st u2 p2 ∧
    loginHandler kdf st u1 p1 =
      { status := 401, body := .message "Invalid username or password" } := by
  constructor <;> simp [loginHandler, h1, h2, h3]

/-- Witness for C7: in `stAna`, "bob" is unknown and "ana" exists but
"wrong" fails verification; the two failures coincide. -/
theorem login_no_user_enumeration_witness :
    getUserByUsername stAna "bob" = none ∧
    getUserByUsername stAna "ana" = some anaUser ∧
    comparePasswords kdfDemo "wrong" anaUser.password = .ok false ∧
    loginHandler kdfDemo stAna "bob" "anything" = loginHandler kdfDemo stAna "ana" "wrong" ∧
    loginHandler kdfDemo stAna "bob" "anything" =
      { status := 401, body := .message "Invalid username or password" } := by
  have h1 : getUserByUsername stAna "bob" = none := by decide
  have h2 : getUserByUsername stAna "ana" = some anaUser := by decide
  have h3 : comparePasswords kdfDemo "wrong" anaUser.password = .ok false := rfl
  have h := login_no_user_enumeration kdfDemo stAna "bob" "anything" "ana" "wrong" anaUser h1 h2 h3
  exact ⟨h1, h2, h3, h.1, h.2⟩

/- ===== Generic identifier-invariant lemmas over the Map model ===== -/

theorem fresh_key_get_none {α : Type} (m : List (Nat × α)) (cnt : Nat)
    (getId : α → Nat)
    (hmem : ∀ e ∈ m, getId e.2 = e.1 ∧ 1 ≤ e.1 ∧ e.1 < cnt) :
    mapGet cnt m = none := by
  cases hg : mapGet cnt m with
  | none => rfl
  | some v =>
    have := (hmem _ (mapGet_mem _ _ _ hg)).2.2
    omega

theorem cnt_not_mem_keys {α : Type} (m : List (Nat × α)) (cnt : Nat)
    (getId : α → Nat)
    (hmem : ∀ e ∈ m, getId e.2 = e.1 ∧ 1 ≤ e.1 ∧ e.1 < cnt) :
    cnt ∉ m.map Prod.fst := by
  intro hk
  rw [List.mem_map] at hk
  obtain ⟨e, he, hfst⟩ := hk
  have := (hmem e he).2.2
  omega

theorem storeInv_create {α : Type} (m : List (Nat × α)) (cnt : Nat) (rec : α)
    (getId : α → Nat) (hrec : getId rec = cnt)
    (hnd : (m.map Prod.fst).Nodup)
    (hmem : ∀ e ∈ m, getId e.2 = e.1 ∧ 1 ≤ e.1 ∧ e.1 < cnt)
    (hpos : 1 ≤ cnt) :
    ((mapSet cnt rec m).map Prod.fst).Nodup ∧
    (∀ e ∈ mapSet cnt rec m, getId e.2 = e.1 ∧ 1 ≤ e.1 ∧ e.1 < cnt + 1) := by
  have hfresh := fresh_key_get_none m cnt getId hmem
  rw [mapSet_of_get_none cnt rec m hfresh]
  constructor
  · rw [List.map_append]
    rw [List.nodup_append]
    exact ⟨hnd, List.nodup_singleton _, by
      intro a ha hb
      simp at hb
      rw [hb] at ha
      exact cnt_not_mem_keys m cnt getId hmem ha⟩
  · intro e he
    rw [List.mem_append] at he
    rcases he with he | he
    · have := hmem e he
      exact ⟨this.1, this.2.1, by omega⟩
    · simp at he
      subst he
      exact ⟨hrec, hpos, by omega⟩

theorem storeInv_update {α : Type} (m : List (Nat × α)) (cnt id : Nat)
    (existing updated : α) (getId : α → Nat)
    (hget : mapGet id m = some existing)
    (hupid : getId updated = getId existing)
    (hnd : (m.map Prod.fst).Nodup)
    (hmem : ∀ e ∈ m, getId e.2 = e.1 ∧ 1 ≤ e.1 ∧ e.1 < cnt) :
    ((mapSet id updated m).map Prod.fst).Nodup ∧
    (∀ e ∈ mapSet id updated m, getId e.2 = e.1 ∧ 1 ≤ e.1 ∧ e.1 < cnt) := by
  constructor
  · rw [keys_mapSet_of_get_some id updated existing m hget]
    exact hnd
  · intro e he
    rcases mem_mapSet id updated m e he with he1 | he1
    · subst he1
      have hex := hmem _ (mapGet_mem _ _ _ hget)
      exact ⟨by rw [hupid]; exact hex.1, hex.2.1, hex.2.2⟩
    · exact hmem e he1

theorem storeInv_delete {α : Type} (m : List (Nat × α)) (cnt id : Nat)
    (getId : α → Nat)
    (hnd : (m.map Prod.fst).Nodup)
    (hmem : ∀ e ∈ m, getId e.2 = e.1 ∧ 1 ≤ e.1 ∧ e.1 < cnt) :
    ((mapDelete id m).map Prod.fst).Nodup ∧
    (∀ e ∈ mapDelete id m, getId e.2 = e.1 ∧ 1 ≤ e.1 ∧ e.1 < cnt) := by
  constructor
  · exact ((List.filter_sublist m).map Prod.fst).nodup hnd
  · intro e he
    exact hmem e (mem_mapDelete id m e he)

/- ===== C9: preservation along guest and task traces ===== -/

theorem updateGuest_counters (st : MemState) (id : Nat) (p : PartialInsertGuest) :
    (updateGuest st id p).1.guestId = st.guestId := by
  unfold updateGuest
  cases mapGet id st.guests <;> rfl

theorem updateGuest_char (st : MemState) (id : Nat) (p : PartialInsertGuest)
    (existing : Guest) (hg : mapGet id st.guests = some existing) :
    ∃ updated : Guest,
      (updateGuest st id p).1 = { st with guests := mapSet id updated st.guests } ∧
      (updateGuest st id p).2 = some updated ∧ updated.id = existing.id := by
  unfold updateGuest
  rw [hg]
  exact ⟨_, rfl, rfl, rfl⟩

theorem updateTask_char (st : MemState) (id : Nat) (p : PartialInsertTask)
    (existing : Task) (hg : mapGet id st.tasks = some existing) :
    ∃ updated : Task,
      (updateTask st id p).1 = { st with tasks := mapSet id updated st.tasks } ∧
      (updateTask st id p).2 = some updated ∧ updated.id = existing.id := by
  unfold updateTask
  rw [hg]
  exact ⟨_, rfl, rfl, rfl⟩

theorem guestInv_apply (st : MemState) (op : GuestOp) (h : GuestInv st) :
    GuestInv (applyGuestOp st op) := by
  obtain ⟨hnd, hmem, hpos⟩ := h
  cases op with
  | create g =>
    have h2 := storeInv_create st.guests st.guestId (createGuest st g).2 Guest.id
      rfl hnd hmem hpos
    exact ⟨h2.1, h2.2, by show 1 ≤ st.guestId + 1; omega⟩
  | update id p =>
    show GuestInv (updateGuest st id p).1
    cases hg : mapGet id st.guests with
    | none =>
      have heq : (updateGuest st id p).1 = st := by unfold updateGuest; rw [hg]
      rw [heq]
      exact ⟨hnd, hmem, hpos⟩
    | some existing =>
      obtain ⟨upd, heq, _, hid⟩ := updateGuest_char st id p existing hg
      rw [heq]
      have h2 := storeInv_update st.guests st.guestId id existing upd Guest.id hg hid hnd hmem
      exact ⟨h2.1, h2.2, hpos⟩
  | del id =>
    have h2 := storeInv_delete st.guests st.guestId id Guest.id hnd hmem
    exact ⟨h2.1, h2.2, hpos⟩

theorem guestInv_exec (ops : List GuestOp) (st : MemState) (h : GuestInv st) :
    GuestInv (execGuestOps st ops) := by
  induction ops generalizing st with
  | nil => exact h
  | cons op rest ih => exact ih _ (guestInv_apply st op h)

theorem applyGuestOp_guestId (st : MemState) (op : GuestOp) :
    (applyGuestOp st op).guestId =
      (match op with | .create _ => st.guestId + 1 | _ => st.guestId) := by
  cases op with
  | create g => rfl
  | update id p => exact updateGuest_counters st id p
  | del id => rfl

theorem guestIdsAssigned_range (ops : List GuestOp) (st : MemState) :
    guestIdsAssigned st ops = List.range' st.guestId (countGuestCreates ops) := by
  induction ops generalizing st with
  | nil => rfl
  | cons op rest ih =>
    cases op with
    | create g =>
      show (createGuest st g).2.id :: guestIdsAssigned (createGuest st g).1 rest =
        List.range' st.guestId (countGuestCreates rest + 1)
      rw [ih]
      rfl
    | update id p =>
      show guestIdsAssigned (updateGuest st id p).1 rest =
        List.range' st.guestId (countGuestCreates rest)
      rw [ih, updateGuest_counters]
    | del id =>
      show guestIdsAssigned (deleteGuest st id).1 rest =
        List.range' st.guestId (countGuestCreates rest)
      rw [ih]
      rfl

theorem updateTask_counters (st : MemState) (id : Nat) (p : PartialInsertTask) :
    (updateTask st id p).1.taskId = st.taskId := by
  unfold updateTask
  cases mapGet id st.tasks <;> rfl

theorem taskInv_apply (st : MemState) (op : TaskOp) (h : TaskInv st) :
    TaskInv (applyTaskOp st op) := by
  obtain ⟨hnd, hmem, hpos⟩ := h
  cases op with
  | create t =>
    have h2 := storeInv_create st.tasks st.taskId (createTask st t).2 Task.id
      rfl hnd hmem hpos
    exact ⟨h2.1, h2.2, by show 1 ≤ st.taskId + 1; omega⟩
  | update id p =>
    show TaskInv (updateTask st id p).1
    cases hg : mapGet id st.tasks with
    | none =>
      have heq : (updateTask st id p).1 = st := by unfold updateTask; rw [hg]
      rw [heq]
      exact ⟨hnd, hmem, hpos⟩
    | some existing =>
      obtain ⟨upd, heq, _, hid⟩ := updateTask_char st id p existing hg
      rw [heq]
      have h2 := storeInv_update st.tasks st.taskId id existing upd Task.id hg hid hnd hmem
      exact ⟨h2.1, h2.2, hpos⟩
  | del id =>
    have h2 := storeInv_delete st.tasks st.taskId id Task.id hnd hmem
    exact ⟨h2.1, h2.2, hpos⟩

theorem taskInv_exec (ops : List TaskOp) (st : MemState) (h : TaskInv st) :
    TaskInv (execTaskOps st ops) := by
  induction ops generalizing st with
  | nil => exact h
  | cons op rest ih => exact ih _ (taskInv_apply st op h)

theorem taskIdsAssigned_range (ops : List TaskOp) (st : MemState) :
    taskIdsAssigned st ops = List.range' st.taskId (countTaskCreates ops) := by
  induction ops generalizing st with
  | nil => rfl
  | cons op rest ih =>
    cases op with
    | create t =>
      show (createTask st t).2.id :: taskIdsAssigned (createTask st t).1 rest =
        List.range' st.taskId (countTaskCreates rest + 1)
      rw [ih]
      rfl
    | update id p =>
      show taskIdsAssigned (updateTask st id p).1 rest =
        List.range' st.taskId (countTaskCreates rest)
      rw [ih, updateTask_counters]
    | del id =>
      show taskIdsAssigned (deleteTask st id).1 rest =
        List.range' st.taskId (countTaskCreates rest)
      rw [ih]
      rfl

/-- C9: in every state of the in-memory store reachable by guest (resp.
task) operations from `new MemStorage()`: stored keys are unique and
every record carries its key as its immutable `id` (an update can only
return a record whose id is the requested one); the identifiers handed
out by create form exactly the strictly increasing sequence 1, 2, 3, …
(`List.range' 1 n`), one per create, regardless of interleaved updates
and deletes — so an id is never reused after its record is deleted, and
the next create's id differs from every stored key. -/
theorem identifier_invariants :
    (∀ ops : List GuestOp,
      ((execGuestOps initMemState ops).guests.map Prod.fst).Nodup ∧
      (∀ e ∈ (execGuestOps initMemState ops).guests,
        e.2.id = e.1 ∧ 1 ≤ e.1 ∧ e.1 < (execGuestOps initMemState ops).guestId) ∧
      guestIdsAssigned initMemState ops = List.range' 1 (countGuestCreates ops) ∧
      (∀ (id : Nat) (p : PartialInsertGuest) (g' : Guest),
        (updateGuest (execGuestOps initMemState ops) id p).2 = some g' → g'.id = id) ∧
      (∀ g : InsertGuest,
        (createGuest (execGuestOps initMemState ops) g).2.id =
          (execGuestOps initMemState ops).guestId ∧
        (execGuestOps initMemState ops).guestId ∉
          ((execGuestOps initMemState ops).guests.map Prod.fst))) ∧
    (∀ ops : List TaskOp,
      ((execTaskOps initMemState ops).tasks.map Prod.fst).Nodup ∧
      (∀ e ∈ (execTaskOps initMemState ops).tasks,
        e.2.id = e.1 ∧ 1 ≤ e.1 ∧ e.1 < (execTaskOps initMemState ops).taskId) ∧
      taskIdsAssigned initMemState ops = List.range' 1 (countTaskCreates ops) ∧
      (∀ (id : Nat) (p : PartialInsertTask) (t' : Task),
        (updateTask (execTaskOps initMemState ops) id p).2 = some t' → t'.id = id) ∧
      (∀ t : InsertTask,
        (createTask (execTaskOps initMemState ops) t).2.id =
          (execTaskOps initMemState ops).taskId ∧
        (execTaskOps initMemState ops).taskId ∉
          ((execTaskOps initMemState ops).tasks.map Prod.fst))) := by
  constructor
  · intro ops
    have hInv0 : GuestInv initMemState :=
      ⟨by simp [initMemState], by intro e he; simp [initMemState] at he, le_refl 1⟩
    obtain ⟨hnd, hmem, hpos⟩ := guestInv_exec ops initMemState hInv0
    refine ⟨hnd, hmem, guestIdsAssigned_range ops initMemState, ?_, ?_⟩
    · intro id p g' hupd
      cases hg : mapGet id (execGuestOps initMemState ops).guests with
      | none =>
        have hnone : (updateGuest (execGuestOps initMemState ops) id p).2 = none := by
          unfold updateGuest; rw [hg]
        rw [hnone] at hupd
        exact absurd hupd (by simp)
      | some existing =>
        obtain ⟨upd, _, hsome, hid⟩ :=
          updateGuest_char (execGuestOps initMemState ops) id p existing hg
        rw [hsome] at hupd
        have hgid : g' = upd := by injection hupd with h; exact h.symm
        have hex : existing.id = id := (hmem _ (mapGet_mem _ _ _ hg)).1
        rw [hgid, hid, hex]
    · intro g
      exact ⟨rfl, cnt_not_mem_keys _ _ Guest.id hmem⟩
  · intro ops
    have hInv0 : TaskInv initMemState :=
      ⟨by simp [initMemState], by intro e he; simp [initMemState] at he, le_refl 1⟩
    obtain ⟨hnd, hmem, hpos⟩ := taskInv_exec ops initMemState hInv0
    refine ⟨hnd, hmem, taskIdsAssigned_range ops initMemState, ?_, ?_⟩
    · intro id p t' hupd
      cases hg : mapGet id (execTaskOps initMemState ops).tasks with
      | none =>
        have hnone : (updateTask (execTaskOps initMemState ops) id p).2 = none := by
          unfold updateTask; rw [hg]
        rw [hnone] at hupd
        exact absurd hupd (by simp)
      | some existing =>
        obtain ⟨upd, _, hsome, hid⟩ :=
          updateTask_char (execTaskOps initMemState ops) id p existing hg
        rw [hsome] at hupd
        have htid : t' = upd := by injection hupd with h; exact h.symm
        have hex : existing.id = id := (hmem _ (mapGet_mem _ _ _ hg)).1
        rw [htid, hid, hex]
    · intro t
      exact ⟨rfl, cnt_not_mem_keys _ _ Task.id hmem⟩

/-- Witness for C9 on concrete traces: create, create, delete 1, create
hands out ids 1, 2, 3 in order (3 is fresh even though 1 was deleted),
and an update addressed to id 2 returns a record with id 2. -/
theorem identifier_invariants_witness :
    guestIdsAssigned initMemState guestOpsDemo = [1, 2, 3] ∧
    ((execGuestOps initMemState guestOpsDemo).guests.map Prod.fst).Nodup ∧
    (updateGuest (execGuestOps initMemState guestOpsDemo) 2 pNullEmail).2 =
      some { gAna with id := 2 } ∧
    ({ gAna with id := 2 } : Guest).id = 2 ∧
    taskIdsAssigned initMemState taskOpsDemo = [1, 2] := by
  have hg := identifier_invariants.1 guestOpsDemo
  have ht := identifier_invariants.2 taskOpsDemo
  have hupd : (updateGuest (execGuestOps initMemState guestOpsDemo) 2 pNullEmail).2 =
      some { gAna with id := 2 } := by decide
  refine ⟨?_, hg.1, hupd, hg.2.2.2.1 2 pNullEmail _ hupd, ?_⟩
  · rw [hg.2.2.1]; decide
  · rw [ht.2.2.1]; decide

/- ===== C10: the settings collection along settings-only traces ===== -/

theorem updateUserSettings_counters (st : MemState) (id : Nat)
    (p : PartialInsertUserSettings) :
    (updateUserSettings st id p).1.userSettingsId = st.userSettingsId := by
  unfold updateUserSettings
  cases mapGet id st.userSettings <;> rfl

theorem updateUserSettings_char (st : MemState) (id : Nat)
    (p : PartialInsertUserSettings) (existing : UserSettings)
    (hg : mapGet id st.userSettings = some existing) :
    ∃ updated : UserSettings,
      (updateUserSettings st id p).1 =
        { st with userSettings := mapSet id updated st.userSettings } ∧
      (updateUserSettings st id p).2 = some updated ∧ updated.id = existing.id := by
  unfold updateUserSettings
  rw [hg]
  exact ⟨_, rfl, rfl, rfl⟩

theorem settingsInv_apply (st : MemState) (op : SettingsOp) (h : SettingsInv st) :
    SettingsInv (applySettingsOp st op) := by
  obtain ⟨hmem, hlen, hhead⟩ := h
  cases op with
  | create s =>
    show SettingsInv (createUserSettings st s).1
    have hfresh := fresh_key_get_none st.userSettings st.userSettingsId UserSettings.id hmem
    have hpos : 1 ≤ st.userSettingsId := by omega
    have hset := mapSet_of_get_none st.userSettingsId (createUserSettings st s).2
      st.userSettings hfresh
    refine ⟨?_, ?_, ?_⟩
    · intro e he
      show e.2.id = e.1 ∧ 1 ≤ e.1 ∧ e.1 < st.userSettingsId + 1
      have he2 : e ∈ mapSet st.userSettingsId (createUserSettings st s).2 st.userSettings := he
      rw [hset] at he2
      rw [List.mem_append] at he2
      rcases he2 with he2 | he2
      · have := hmem e he2
        exact ⟨this.1, this.2.1, by omega⟩
      · simp at he2
        subst he2
        exact ⟨rfl, hpos, by omega⟩
    · show (mapSet st.userSettingsId (createUserSettings st s).2 st.userSettings).length + 1 =
        st.userSettingsId + 1
      rw [hset]
      simp
      omega
    · show ((mapSet st.userSettingsId (createUserSettings st s).2 st.userSettings).map
        Prod.fst).head? = (if st.userSettingsId + 1 = 1 then none else some 1)
      rw [hset, List.map_append]
      cases hcase : st.userSettings with
      | nil =>
        have h1 : st.userSettingsId = 1 := by rw [hcase] at hlen; simpa using hlen.symm
        simp [hcase, h1]
      | cons f rest =>
        have h2 : st.userSettingsId ≠ 1 := by rw [hcase] at hlen; simp at hlen; omega
        rw [hcase] at hhead
        rw [if_neg h2] at hhead
        simp at hhead ⊢
        constructor
        · omega
        · exact hhead
  | update id p =>
    show SettingsInv (updateUserSettings st id p).1
    cases hg : mapGet id st.userSettings with
    | none =>
      have heq : (updateUserSettings st id p).1 = st := by
        unfold updateUserSettings; rw [hg]
      rw [heq]
      exact ⟨hmem, hlen, hhead⟩
    | some existing =>
      obtain ⟨upd, heq, _, hid⟩ := updateUserSettings_char st id p existing hg
      rw [heq]
      have hex := hmem _ (mapGet_mem _ _ _ hg)
      refine ⟨?_, ?_, ?_⟩
      · intro e he
        rcases mem_mapSet id upd st.userSettings e he with he1 | he1
        · subst he1
          exact ⟨by rw [hid]; exact hex.1, hex.2.1, hex.2.2⟩
        · exact hmem e he1
      · show (mapSet id upd st.userSettings).length + 1 = st.userSettingsId
        rw [length_mapSet_of_get_some id upd existing st.userSettings hg]
        exact hlen
      · show ((mapSet id upd st.userSettings).map Prod.fst).head? =
          (if st.userSettingsId = 1 then none else some 1)
        rw [keys_mapSet_of_get_some id upd existing st.userSettings hg]
        exact hhead

theorem settingsInv_exec (ops : List SettingsOp) (st : MemState) (h : SettingsInv st) :
    SettingsInv (execSettingsOps st ops) := by
  induction ops generalizing st with
  | nil => exact h
  | cons op rest ih => exact ih _ (settingsInv_apply st op h)

theorem execSettingsOps_counter (ops : List SettingsOp) (st : MemState) :
    (execSettingsOps st ops).userSettingsId =
      st.userSettingsId + countSettingsCreates ops := by
  induction ops generalizing st with
  | nil => rfl
  | cons op rest ih =>
    cases op with
    | create s =>
      show (execSettingsOps (createUserSettings st s).1 rest).userSettingsId =
        st.userSettingsId + (countSettingsCreates rest + 1)
      rw [ih]
      have hc : (createUserSettings st s).1.userSettingsId = st.userSettingsId + 1 := rfl
      rw [hc]
      omega
    | update id p =>
      show (execSettingsOps (updateUserSettings st id p).1 rest).userSettingsId =
        st.userSettingsId + countSettingsCreates rest
      rw [ih, updateUserSettings_counters]

theorem getUserSettings_head (st : MemState) :
    getUserSettings st = st.userSettings.head?.map Prod.snd := by
  show (st.userSettings.map (fun e => e.2)).head? = st.userSettings.head?.map Prod.snd
  rw [List.head?_map]

/-- C10: along any sequence of settings operations from the fresh store
containing at least one create, `getUserSettings` (and hence
GET /api/settings, which never consults the authenticated user) returns
the record created first — the one with id 1, possibly updated in
content; every later create is stored (the collection holds one record
per create; the interface has no settings delete) but a record whose key
is not 1 is never the one returned. -/
theorem settings_first_record_always_returned (ops : List SettingsOp)
    (h : 1 ≤ countSettingsCreates ops) :
    (∃ r, getUserSettings (execSettingsOps initMemState ops) = some r ∧ r.id = 1 ∧
      (∀ e ∈ (execSettingsOps initMemState ops).userSettings, e.1 ≠ 1 →
        getUserSettings (execSettingsOps initMemState ops) ≠ some e.2)) ∧
    (execSettingsOps initMemState ops).userSettings.length = countSettingsCreates ops ∧
    (∀ e ∈ (execSettingsOps initMemState ops).userSettings, e.2.id = e.1) ∧
    (getSettingsHandler (execSettingsOps initMemState ops)).status = 200 := by
  have hInv0 : SettingsInv initMemState :=
    ⟨by intro e he; simp [initMemState] at he, by simp [initMemState],
     by simp [initMemState]⟩
  obtain ⟨hmem, hlen, hhead⟩ := settingsInv_exec ops initMemState hInv0
  have hcnt := execSettingsOps_counter ops initMemState
  have hinit : initMemState.userSettingsId = 1 := rfl
  rw [hinit] at hcnt
  have hlen2 : (execSettingsOps initMemState ops).userSettings.length =
      countSettingsCreates ops := by omega
  have hne1 : (execSettingsOps initMemState ops).userSettingsId ≠ 1 := by omega
  rw [if_neg hne1] at hhead
  cases hS : (execSettingsOps initMemState ops).userSettings with
  | nil =>
    exfalso
    rw [hS] at hlen2
    simp at hlen2
    omega
  | cons f rest =>
    rw [hS] at hhead hlen2 hmem
    simp at hhead
    have hgu : getUserSettings (execSettingsOps initMemState ops) = some f.2 := by
      rw [getUserSettings_head, hS]
      rfl
    have hfmem : f ∈ f :: rest := List.mem_cons_self f rest
    have hfid : f.2.id = 1 := by rw [(hmem f hfmem).1, hhead]
    refine ⟨⟨f.2, hgu, hfid, ?_⟩, hlen2, fun e he => (hmem e he).1, ?_⟩
    · intro e he hne heq
      rw [hgu] at heq
      have : e.2 = f.2 := by injection heq with h2; exact h2.symm
      have : e.2.id = 1 := by rw [this, hfid]
      rw [(hmem e he).1] at this
      exact hne this
    · simp [getSettingsHandler, hgu]

/-- Witness for C10 on a concrete trace: two creates and an update of
record 1 — the returned record is the first-created one (id 1, updated
theme), the second record is stored but not returned. -/
theorem settings_first_record_witness :
    1 ≤ countSettingsCreates settingsOpsDemo ∧
    getUserSettings (execSettingsOps initMemState settingsOpsDemo) =
      some { id := 1, userId := 1, weddingDate := none, coupleNames := none,
             venueAddress := none, theme := some "rustic", isPremium := none } ∧
    (execSettingsOps initMemState settingsOpsDemo).userSettings.length = 2 ∧
    (getSettingsHandler (execSettingsOps initMemState settingsOpsDemo)).status = 200 := by
  have h := settings_first_record_always_returned settingsOpsDemo (by decide)
  refine ⟨by decide, by decide, ?_, h.2.2.2⟩
  rw [h.2.1]
  decide

end Wedding
